import Mathlib

/-!
Shallow embedding of the dupefile repository (three Go program variants).

`src/dupefile.go` holds two variants: a sha256 report-only program and the
config-driven md5 program with JSON rules and a live flag (modelled below in
namespace `Dupefile`).  `src/unnamed/part_001` is the md5 variant with an
embedded rule table (namespace `Part001`).  `src/unnamed/part_000` is the
README.

The filesystem is modelled as a map from path to optional byte contents;
`none` models a file that cannot be opened or read.  `os.Remove` attempts are
modelled through a predicate `removeOk`, true when the call would succeed,
and every modelled function returns its trace of log lines and attempted
removals explicitly.
-/

/-- File contents by path; `none` models a file that cannot be opened or read. -/
def FS : Type := String → Option (List Nat)

/-- Go struct `File` (dupefile.go lines 212 to 217): basename, path, size at
scan time, and the digest once computed (empty list until then). -/
structure File where
  basename : String
  path : String
  size : Nat
  hash : List Nat
deriving DecidableEq

/-- Go struct `Rule` (dupefile.go lines 220 to 223) with fields `KeepDir` and
`RemoveDir`; part_001 names the second field `RmDir`. -/
structure Rule where
  keepDir : String
  removeDir : String
deriving DecidableEq

/-- Error values returned by the modelled functions. -/
inductive Err where
  | ioError (path : String)
  | shortRead (path : String)
  | removeFailed (path : String)
  | compareFailed (path1 path2 : String)
  | hashCollisionNotIdentical (path1 path2 : String)
deriving DecidableEq

/-- Log lines the programs emit while reporting and resolving duplicates. -/
inductive Report where
  | duplicateFound (path1 path2 : String)
  | deleting (path : String)
  | wouldDelete (path : String)
  | noRuleFound (path1 path2 : String)
  | hashCollisionReport (path1 path2 : String)
deriving DecidableEq

/-- Go `path.Split(p)` keeps the directory part: everything up to and
including the final slash; when `p` holds no slash the directory part is
the empty string. -/
def splitDir (p : String) : String :=
  String.mk ((p.data.reverse.dropWhile (fun c => c != '/')).reverse)

/-- Go `readFile` (dupefile.go lines 482 to 503, part_001 lines 242 to 264):
open and read the whole file, then fail with a short read when the byte
count differs from the size recorded at scan time. -/
def readFile (fs : FS) (file : File) : Except Err (List Nat) :=
  match fs file.path with
  | none => .error (.ioError file.path)
  | some contents =>
    if contents.length ≠ file.size then .error (.shortRead file.path)
    else .ok contents

/-- Byte loop of `isIdentical`: iterate over the first list comparing
positionwise; the loop is reached only when the two lengths are equal, so
the second list never runs out first. -/
def contentsEqLoop : List Nat → List Nat → Bool
  | [], _ => true
  | _ :: _, [] => true
  | b1 :: t1, b2 :: t2 => b1 == b2 && contentsEqLoop t1 t2

/-- Go `isIdentical` (dupefile.go lines 458 to 480, part_001 lines 218 to
240): re-read both files, compare lengths, then compare byte for byte. -/
def isIdentical (fs : FS) (file1 file2 : File) : Except Err Bool := do
  let contents1 ← readFile fs file1
  let contents2 ← readFile fs file2
  if contents1.length ≠ contents2.length then return false
  return contentsEqLoop contents1 contents2

/-- One iteration of Go `calculateChecksums` (dupefile.go lines 373 to 410):
stream the full contents into the digest, failing on open and on a short
read; the digest function itself (md5 or sha256) is a parameter of the
model. -/
def calculateChecksum (hash : List Nat → List Nat) (fs : FS) (file : File) :
    Except Err File :=
  match fs file.path with
  | none => .error (.ioError file.path)
  | some contents =>
    if contents.length ≠ file.size then .error (.shortRead file.path)
    else .ok { file with hash := hash contents }

/-- Go `calculateChecksums`: process the files in order, aborting on the
first error. -/
def calculateChecksums (hash : List Nat → List Nat) (fs : FS) :
    List File → Except Err (List File)
  | [] => .ok []
  | file :: rest => do
    let file1 ← calculateChecksum hash fs file
    let rest1 ← calculateChecksums hash fs rest
    return file1 :: rest1

/-- A rule matches a pair of parent directories when its keep/remove pair
equals the directories in either orientation; this is the disjunction of
the two branch guards of `resolveDuplicate`. -/
def matchesRule (rule : Rule) (dir1 dir2 : String) : Bool :=
  (dir1 == rule.keepDir && dir2 == rule.removeDir) ||
  (dir1 == rule.removeDir && dir2 == rule.keepDir)

/-- The duplicate index operation of the report loops (dupefile.go lines 424
to 428): look the digest up; insert the record only when no record is stored
for the digest yet. -/
def lookupOrInsert (index : List (List Nat × File)) (digest : List Nat)
    (record : File) : File × List (List Nat × File) × Bool :=
  match index.lookup digest with
  | some existing => (existing, index, true)
  | none => (record, (digest, record) :: index, false)

/-- Run the duplicate index over a sequence of records keyed by their hash. -/
def insertAll (index : List (List Nat × File)) : List File → List (List Nat × File)
  | [] => index
  | file :: rest => insertAll (lookupOrInsert index file.hash file).2.1 rest

/-- Trace of a whole report/resolve run: log lines, attempted removals, the
final duplicate index, and the error that ended the run if any. -/
structure RunResult where
  reports : List Report
  removeCalls : List String
  index : List (List Nat × File)
  err : Option Err
deriving DecidableEq

namespace Dupefile

/-- Trace of one `resolveDuplicate` call of the config-driven variant: log
lines, paths passed to `os.Remove`, the returned rule-found flag, and the
returned error if any. -/
structure ResolveResult where
  reports : List Report
  removeCalls : List String
  foundRule : Bool
  err : Option Err
deriving DecidableEq

/-- Rule loop of `resolveDuplicate` (dupefile.go lines 517 to 544).  The
first matching rule returns.  Source line 537: in the swapped branch the
non-live message names `file2.Path` although the live branch of that very
case removes `file1.Path`. -/
def resolveGo (file1 file2 : File) (live : Bool) (removeOk : String → Bool)
    (dir1 dir2 : String) : List Rule → ResolveResult
  | [] => ⟨[], [], false, none⟩
  | rule :: rest =>
    if dir1 == rule.keepDir && dir2 == rule.removeDir then
      if live then
        if removeOk file2.path then ⟨[.deleting file2.path], [file2.path], true, none⟩
        else ⟨[.deleting file2.path], [file2.path], true, some (.removeFailed file2.path)⟩
      else ⟨[.wouldDelete file2.path], [], true, none⟩
    else if dir1 == rule.removeDir && dir2 == rule.keepDir then
      if live then
        if removeOk file1.path then ⟨[.deleting file1.path], [file1.path], true, none⟩
        else ⟨[.deleting file1.path], [file1.path], true, some (.removeFailed file1.path)⟩
      else ⟨[.wouldDelete file2.path], [], true, none⟩
    else resolveGo file1 file2 live removeOk dir1 dir2 rest

/-- Go `resolveDuplicate(rules, file1, file2, live)` of the config-driven
variant (dupefile.go lines 508 to 545). -/
def resolveDuplicate (rules : List Rule) (file1 file2 : File) (live : Bool)
    (removeOk : String → Bool) : ResolveResult :=
  resolveGo file1 file2 live removeOk (splitDir file1.path) (splitDir file2.path) rules

/-- Loop body of `reportAndResolveDuplicates` (dupefile.go lines 412 to 456).
The Go code copies `file.Hash` into a fixed 16 byte array key; after
`calculateChecksums` the hash is exactly 16 bytes, so the key is the hash
itself.  A collision whose deep compare says the files differ, and any
compare or removal error, is returned as an error, ending the loop. -/
def runGo (fs : FS) (removeOk : String → Bool) (rules : List Rule) (live : Bool)
    (index : List (List Nat × File)) (reports : List Report) (calls : List String) :
    List File → RunResult
  | [] => ⟨reports, calls, index, none⟩
  | file :: rest =>
    match index.lookup file.hash with
    | none => runGo fs removeOk rules live ((file.hash, file) :: index) reports calls rest
    | some foundFile =>
      match isIdentical fs foundFile file with
      | .error _ => ⟨reports, calls, index, some (.compareFailed foundFile.path file.path)⟩
      | .ok false =>
        ⟨reports, calls, index, some (.hashCollisionNotIdentical file.path foundFile.path)⟩
      | .ok true =>
        let r := resolveDuplicate rules foundFile file live removeOk
        let reports1 := reports ++ Report.duplicateFound file.path foundFile.path :: r.reports
        let calls1 := calls ++ r.removeCalls
        match r.err with
        | some e => ⟨reports1, calls1, index, some e⟩
        | none =>
          if r.foundRule then runGo fs removeOk rules live index reports1 calls1 rest
          else
            runGo fs removeOk rules live index
              (reports1 ++ [Report.noRuleFound file.path foundFile.path]) calls1 rest

/-- Go `reportAndResolveDuplicates(rules, files, live)` of the config-driven
variant. -/
def reportAndResolveDuplicates (fs : FS) (removeOk : String → Bool)
    (rules : List Rule) (files : List File) (live : Bool) : RunResult :=
  runGo fs removeOk rules live [] [] [] files

/-- Rejection reasons of `readRules`; each carries the rule index number the
source message would print (the source prints `i+i`). -/
inductive ConfigErr where
  | noRules
  | missingDir (i : Nat)
  | nonAbsolute (i : Nat)
  | identicalDirs (i : Nat)
deriving DecidableEq

/-- Validation loop of `readRules` (dupefile.go lines 302 to 314): first
failing rule wins; within a rule the checks run in source order. -/
def validateRulesGo : Nat → List Rule → Except ConfigErr Unit
  | _, [] => .ok ()
  | i, rule :: rest =>
    if rule.keepDir.length == 0 || rule.removeDir.length == 0 then
      .error (.missingDir (i + i))
    else if rule.keepDir.data.head? != some '/' || rule.removeDir.data.head? != some '/' then
      .error (.nonAbsolute (i + i))
    else if rule.keepDir == rule.removeDir then
      .error (.identicalDirs (i + i))
    else validateRulesGo (i + 1) rest

/-- Go `readRules` after the JSON decode (dupefile.go lines 283 to 317):
reject an empty rule list, then validate each rule in order; on success the
decoded rules are returned unchanged. -/
def readRules (rules : List Rule) : Except ConfigErr (List Rule) :=
  if rules.length == 0 then .error .noRules
  else
    match validateRulesGo 0 rules with
    | .error e => .error e
    | .ok _ => .ok rules

end Dupefile

namespace Part001

/-- The rule table embedded in `resolveDuplicate` of part_001 (lines 275 to
320). -/
def hardRules : List Rule := [
  ⟨"/home/will/t/testing/", "/home/will/t/testing/2/"⟩,
  ⟨"/home/will/images/game screenshots/WoW_screenshots/",
   "/home/will/images/game screenshots/WoW_screenshots/"⟩,
  ⟨"/home/will/images/storey_albums/Albums/2016 Italy/",
   "/home/will/images/tablet-2016-05-25/"⟩,
  ⟨"/home/will/images/storey_albums/Albums/2016 Mexico/",
   "/home/will/images/nexus-5x/"⟩,
  ⟨"/home/will/images/storey_albums/Baltimore 2010 before alter/",
   "/home/will/images/dad camera backup 2012-10-13/"⟩,
  ⟨"/home/will/images/storey_albums/2011 Harrison hotsprings before alter/",
   "/home/will/images/dad camera backup 2012-10-13/"⟩,
  ⟨"/home/will/images/storey_albums/2010 Tofino before alter/",
   "/home/will/images/dad camera backup 2012-10-13/"⟩,
  ⟨"/home/will/images/storey_albums/2012 Father office photos/",
   "/home/will/images/dad camera backup 2012-10-13/"⟩,
  ⟨"/home/will/images/storey_albums/Florida 2011 before alter/",
   "/home/will/images/dad camera backup 2012-10-13/"⟩,
  ⟨"/home/will/images/storey_albums/2011 Block party before alter/",
   "/home/will/images/dad camera backup 2012-10-13/"⟩,
  ⟨"/home/will/images/storey_albums/2011 Granny birthday before alter/",
   "/home/will/images/dad camera backup 2012-10-13/"⟩]

/-- Trace of one part_001 `resolveDuplicate` call: log lines, attempted
removals, and the error if a removal failed. -/
structure ResolveTrace where
  reports : List Report
  removeCalls : List String
  err : Option Err
deriving DecidableEq

/-- Rule loop of part_001 `resolveDuplicate` (lines 322 to 343).  It logs
Deleting before checking `live`, and after a match it continues scanning the
remaining rules instead of returning. -/
def resolveGo (file1 file2 : File) (live : Bool) (removeOk : String → Bool)
    (dir1 dir2 : String) : List Rule → ResolveTrace
  | [] => ⟨[], [], none⟩
  | rule :: rest =>
    if dir1 == rule.keepDir && dir2 == rule.removeDir then
      if live then
        if removeOk file2.path then
          let r := resolveGo file1 file2 live removeOk dir1 dir2 rest
          ⟨Report.deleting file2.path :: r.reports, file2.path :: r.removeCalls, r.err⟩
        else ⟨[Report.deleting file2.path], [file2.path], some (.removeFailed file2.path)⟩
      else
        let r := resolveGo file1 file2 live removeOk dir1 dir2 rest
        ⟨Report.deleting file2.path :: r.reports, r.removeCalls, r.err⟩
    else if dir1 == rule.removeDir && dir2 == rule.keepDir then
      if live then
        if removeOk file1.path then
          let r := resolveGo file1 file2 live removeOk dir1 dir2 rest
          ⟨Report.deleting file1.path :: r.reports, file1.path :: r.removeCalls, r.err⟩
        else ⟨[Report.deleting file1.path], [file1.path], some (.removeFailed file1.path)⟩
      else
        let r := resolveGo file1 file2 live removeOk dir1 dir2 rest
        ⟨Report.deleting file1.path :: r.reports, r.removeCalls, r.err⟩
    else resolveGo file1 file2 live removeOk dir1 dir2 rest

/-- Part_001 `resolveDuplicate(file1, file2, live)` with its embedded rule
table. -/
def resolveDuplicate (removeOk : String → Bool) (file1 file2 : File)
    (live : Bool) : ResolveTrace :=
  resolveGo file1 file2 live removeOk (splitDir file1.path) (splitDir file2.path) hardRules

/-- Loop body of part_001 `reportDupes` (lines 176 to 216): a collision whose
deep compare says the files differ is logged and the loop continues with the
next file. -/
def reportDupesGo (fs : FS) (removeOk : String → Bool) (live : Bool)
    (index : List (List Nat × File)) (reports : List Report) (calls : List String) :
    List File → RunResult
  | [] => ⟨reports, calls, index, none⟩
  | file :: rest =>
    match index.lookup file.hash with
    | none => reportDupesGo fs removeOk live ((file.hash, file) :: index) reports calls rest
    | some foundFile =>
      match isIdentical fs foundFile file with
      | .error _ => ⟨reports, calls, index, some (.compareFailed foundFile.path file.path)⟩
      | .ok true =>
        let r := resolveDuplicate removeOk foundFile file live
        let reports1 := reports ++ Report.duplicateFound file.path foundFile.path :: r.reports
        let calls1 := calls ++ r.removeCalls
        match r.err with
        | some e => ⟨reports1, calls1, index, some e⟩
        | none => reportDupesGo fs removeOk live index reports1 calls1 rest
      | .ok false =>
        reportDupesGo fs removeOk live index
          (reports ++ [Report.hashCollisionReport file.path foundFile.path]) calls rest

/-- Part_001 `reportDupes(files, live)`. -/
def reportDupes (fs : FS) (removeOk : String → Bool) (files : List File)
    (live : Bool) : RunResult :=
  reportDupesGo fs removeOk live [] [] [] files

end Part001

/-- Two rules can both match one directory pair only when they are equal or
mutually swapped; `crossOk` rules both out for a pair of rules. -/
def crossOk (r r' : Rule) : Bool :=
  !((r.keepDir == r'.keepDir && r.removeDir == r'.removeDir) ||
    (r.keepDir == r'.removeDir && r.removeDir == r'.keepDir))

/-- No two rules of the list (and no rule together with a later one) can
match the same directory pair. -/
def pairwiseOk : List Rule → Bool
  | [] => true
  | r :: rest => rest.all (crossOk r) && pairwiseOk rest

/-- Number of rules of the list matching the directory pair in either
orientation. -/
def countMatches (d1 d2 : String) : List Rule → Nat
  | [] => 0
  | r :: rest => cond (matchesRule r d1 d2) 1 0 + countMatches d1 d2 rest

theorem countMatches_zero (d1 d2 : String) (rules : List Rule)
    (h : countMatches d1 d2 rules = 0) : ∀ r ∈ rules, matchesRule r d1 d2 = false := by
  induction rules with
  | nil => intro r hr; cases hr
  | cons rule rest ih =>
    intro r hr
    cases hm : matchesRule rule d1 d2 with
    | true => rw [countMatches, hm, cond_true] at h; omega
    | false =>
      rw [countMatches, hm, cond_false, Nat.zero_add] at h
      cases hr with
      | head => exact hm
      | tail _ hr2 => exact ih h r hr2

theorem countMatches_eq_zero (d1 d2 : String) (rules : List Rule)
    (h : ∀ r ∈ rules, matchesRule r d1 d2 = false) : countMatches d1 d2 rules = 0 := by
  induction rules with
  | nil => rfl
  | cons rule rest ih =>
    rw [countMatches, h rule (by simp), cond_false, Nat.zero_add]
    exact ih fun r hr => h r (by simp [hr])

theorem crossOk_not_both (r r' : Rule) (d1 d2 : String) (hc : crossOk r r' = true)
    (h1 : matchesRule r d1 d2 = true) : matchesRule r' d1 d2 = false := by
  cases hx : matchesRule r' d1 d2 with
  | false => rfl
  | true =>
    exfalso
    simp only [matchesRule, Bool.or_eq_true, Bool.and_eq_true, beq_iff_eq] at h1 hx
    simp only [crossOk, Bool.not_eq_true', Bool.or_eq_false_iff, Bool.and_eq_false_iff,
      beq_eq_false_iff_ne, ne_eq] at hc
    rcases h1 with ⟨e1, e2⟩ | ⟨e1, e2⟩ <;> rcases hx with ⟨e3, e4⟩ | ⟨e3, e4⟩ <;>
      subst e1 <;> subst e2 <;> rcases hc with ⟨hc1 | hc1, hc2 | hc2⟩ <;> tauto

theorem pairwiseOk_countMatches (d1 d2 : String) (rules : List Rule)
    (h : pairwiseOk rules = true) : countMatches d1 d2 rules ≤ 1 := by
  induction rules with
  | nil => exact Nat.zero_le 1
  | cons rule rest ih =>
    rw [pairwiseOk, Bool.and_eq_true] at h
    cases hm : matchesRule rule d1 d2 with
    | false =>
      rw [countMatches, hm, cond_false, Nat.zero_add]
      exact ih h.2
    | true =>
      rw [countMatches, hm, cond_true]
      have hz : countMatches d1 d2 rest = 0 := by
        refine countMatches_eq_zero d1 d2 rest fun r hr => ?_
        exact crossOk_not_both rule r d1 d2 (by
          have := List.all_eq_true.mp h.1 r hr
          simpa using this) hm
      omega

theorem pairwiseOk_hardRules : pairwiseOk Part001.hardRules = true := by decide

theorem hardRules_countMatches_le_one (d1 d2 : String) :
    countMatches d1 d2 Part001.hardRules ≤ 1 :=
  pairwiseOk_countMatches d1 d2 Part001.hardRules pairwiseOk_hardRules

theorem dupefile_resolveGo_calls_cases (file1 file2 : File) (live : Bool)
    (removeOk : String → Bool) (dir1 dir2 : String) (rules : List Rule) :
    (Dupefile.resolveGo file1 file2 live removeOk dir1 dir2 rules).removeCalls = [] ∨
    (Dupefile.resolveGo file1 file2 live removeOk dir1 dir2 rules).removeCalls = [file1.path] ∨
    (Dupefile.resolveGo file1 file2 live removeOk dir1 dir2 rules).removeCalls = [file2.path] := by
  induction rules with
  | nil => left; rfl
  | cons rule rest ih =>
    simp only [Dupefile.resolveGo]
    split_ifs <;> simp_all

theorem dupefile_resolveGo_nonlive (file1 file2 : File) (removeOk : String → Bool)
    (dir1 dir2 : String) (rules : List Rule) :
    (Dupefile.resolveGo file1 file2 false removeOk dir1 dir2 rules).removeCalls = [] ∧
    (Dupefile.resolveGo file1 file2 false removeOk dir1 dir2 rules).err = none := by
  induction rules with
  | nil => exact ⟨rfl, rfl⟩
  | cons rule rest ih =>
    simp only [Dupefile.resolveGo]
    split_ifs <;> simp_all

theorem dupefile_resolveGo_skip (file1 file2 : File) (live : Bool)
    (removeOk : String → Bool) (dir1 dir2 : String) (rule : Rule) (rest : List Rule)
    (h : matchesRule rule dir1 dir2 = false) :
    Dupefile.resolveGo file1 file2 live removeOk dir1 dir2 (rule :: rest) =
      Dupefile.resolveGo file1 file2 live removeOk dir1 dir2 rest := by
  simp only [matchesRule, Bool.or_eq_false_iff] at h
  simp only [Dupefile.resolveGo, h.1, h.2]
  rfl

theorem dupefile_resolveGo_fire (file1 file2 : File) (live : Bool)
    (removeOk : String → Bool) (dir1 dir2 : String) (rule : Rule) (rest : List Rule)
    (h : matchesRule rule dir1 dir2 = true) :
    Dupefile.resolveGo file1 file2 live removeOk dir1 dir2 (rule :: rest) =
      Dupefile.resolveGo file1 file2 live removeOk dir1 dir2 [rule] := by
  simp only [Dupefile.resolveGo]
  cases hb : (dir1 == rule.keepDir && dir2 == rule.removeDir) with
  | true => simp [hb]
  | false =>
    have h2 : (dir1 == rule.removeDir && dir2 == rule.keepDir) = true := by
      rcases Bool.or_eq_true_iff.mp h with h1 | h2
      · rw [h1] at hb; cases hb
      · exact h2
    simp [hb, h2]

theorem dupefile_resolveGo_first_match (file1 file2 : File) (live : Bool)
    (removeOk : String → Bool) (dir1 dir2 : String) (pre : List Rule) (rule : Rule)
    (post : List Rule) (hpre : ∀ r ∈ pre, matchesRule r dir1 dir2 = false)
    (hrule : matchesRule rule dir1 dir2 = true) :
    Dupefile.resolveGo file1 file2 live removeOk dir1 dir2 (pre ++ rule :: post) =
      Dupefile.resolveGo file1 file2 live removeOk dir1 dir2 [rule] := by
  induction pre with
  | nil => exact dupefile_resolveGo_fire file1 file2 live removeOk dir1 dir2 rule post hrule
  | cons r pre' ih =>
    rw [List.cons_append,
      dupefile_resolveGo_skip file1 file2 live removeOk dir1 dir2 r _ (hpre r (by simp))]
    exact ih fun r' hr' => hpre r' (by simp [hr'])

theorem part001_resolveGo_no_match (file1 file2 : File) (live : Bool)
    (removeOk : String → Bool) (dir1 dir2 : String) (rules : List Rule)
    (h : ∀ r ∈ rules, matchesRule r dir1 dir2 = false) :
    Part001.resolveGo file1 file2 live removeOk dir1 dir2 rules = ⟨[], [], none⟩ := by
  induction rules with
  | nil => rfl
  | cons rule rest ih =>
    have hr := h rule (by simp)
    simp only [matchesRule, Bool.or_eq_false_iff] at hr
    simp only [Part001.resolveGo, hr.1, hr.2]
    exact ih fun r' h' => h r' (by simp [h'])

theorem part001_resolveGo_calls_cases (file1 file2 : File) (live : Bool)
    (removeOk : String → Bool) (dir1 dir2 : String) (rules : List Rule)
    (h : countMatches dir1 dir2 rules ≤ 1) :
    ((Part001.resolveGo file1 file2 live removeOk dir1 dir2 rules).removeCalls = [] ∨
     (Part001.resolveGo file1 file2 live removeOk dir1 dir2 rules).removeCalls = [file1.path] ∨
     (Part001.resolveGo file1 file2 live removeOk dir1 dir2 rules).removeCalls = [file2.path]) ∧
    (Part001.resolveGo file1 file2 live removeOk dir1 dir2 rules).reports.length ≤ 1 := by
  induction rules with
  | nil => exact ⟨Or.inl rfl, by simp [Part001.resolveGo]⟩
  | cons rule rest ih =>
    cases hm : matchesRule rule dir1 dir2 with
    | false =>
      rw [countMatches, hm, cond_false, Nat.zero_add] at h
      simp only [matchesRule, Bool.or_eq_false_iff] at hm
      simp only [Part001.resolveGo, hm.1, hm.2]
      exact ih h
    | true =>
      rw [countMatches, hm, cond_true] at h
      have hz : countMatches dir1 dir2 rest = 0 := by omega
      have hrest := countMatches_zero dir1 dir2 rest hz
      have hempty := part001_resolveGo_no_match file1 file2 live removeOk dir1 dir2 rest hrest
      simp only [Part001.resolveGo]
      split_ifs <;> simp_all

theorem part001_resolveGo_nonlive (file1 file2 : File) (removeOk : String → Bool)
    (dir1 dir2 : String) (rules : List Rule) :
    (Part001.resolveGo file1 file2 false removeOk dir1 dir2 rules).removeCalls = [] ∧
    (Part001.resolveGo file1 file2 false removeOk dir1 dir2 rules).err = none := by
  induction rules with
  | nil => exact ⟨rfl, rfl⟩
  | cons rule rest ih =>
    simp only [Part001.resolveGo]
    split_ifs <;> simp_all

theorem dupefile_runGo_nonlive (fs : FS) (removeOk : String → Bool)
    (rules : List Rule) (files : List File) :
    ∀ index reports calls,
      (Dupefile.runGo fs removeOk rules false index reports calls files).removeCalls = calls := by
  induction files with
  | nil => intro index reports calls; rfl
  | cons file rest ih =>
    intro index reports calls
    simp only [Dupefile.runGo]
    cases hl : index.lookup file.hash with
    | none => exact ih _ _ _
    | some foundFile =>
      cases hi : isIdentical fs foundFile file with
      | error e => simp only [hi]
      | ok b =>
        cases b with
        | false => simp only [hi]
        | true =>
          have hnl := dupefile_resolveGo_nonlive foundFile file removeOk
            (splitDir foundFile.path) (splitDir file.path) rules
          simp only [hi, Dupefile.resolveDuplicate, hnl.1, hnl.2, List.append_nil]
          split_ifs <;> exact ih _ _ _

/-- Claim C1: for every duplicate pair handed to the resolution engine, at
most one of the two files is ever deleted.  In both variants the list of
paths passed to `os.Remove` during one `resolveDuplicate` call is empty or a
single one of the two paths, for every rule list in the config-driven
variant and for the embedded rule table of part_001, in live and in dry-run
mode alike; so at least one of the two copies always survives on disk. -/
theorem c1_at_most_one_of_pair_removed (rules : List Rule) (file1 file2 : File)
    (live : Bool) (removeOk : String → Bool) :
    ((Dupefile.resolveDuplicate rules file1 file2 live removeOk).removeCalls = [] ∨
     (Dupefile.resolveDuplicate rules file1 file2 live removeOk).removeCalls = [file1.path] ∨
     (Dupefile.resolveDuplicate rules file1 file2 live removeOk).removeCalls = [file2.path]) ∧
    ((Part001.resolveDuplicate removeOk file1 file2 live).removeCalls = [] ∨
     (Part001.resolveDuplicate removeOk file1 file2 live).removeCalls = [file1.path] ∨
     (Part001.resolveDuplicate removeOk file1 file2 live).removeCalls = [file2.path]) :=
  ⟨dupefile_resolveGo_calls_cases file1 file2 live removeOk
      (splitDir file1.path) (splitDir file2.path) rules,
   (part001_resolveGo_calls_cases file1 file2 live removeOk
      (splitDir file1.path) (splitDir file2.path) Part001.hardRules
      (hardRules_countMatches_le_one (splitDir file1.path) (splitDir file2.path))).1⟩

/-- Claim C5: with the live flag false (the default) the resolution engine
performs no filesystem mutation: no `os.Remove` call is attempted and no
deletion error can arise, for any rule set and any duplicate pair, in both
variants, and a whole config-driven report/resolve run attempts no removal
either. -/
theorem c5_dry_run_performs_no_mutation :
    (∀ (rules : List Rule) (file1 file2 : File) (removeOk : String → Bool),
      (Dupefile.resolveDuplicate rules file1 file2 false removeOk).removeCalls = [] ∧
      (Dupefile.resolveDuplicate rules file1 file2 false removeOk).err = none) ∧
    (∀ (file1 file2 : File) (removeOk : String → Bool),
      (Part001.resolveDuplicate removeOk file1 file2 false).removeCalls = [] ∧
      (Part001.resolveDuplicate removeOk file1 file2 false).err = none) ∧
    (∀ (fs : FS) (removeOk : String → Bool) (rules : List Rule) (files : List File),
      (Dupefile.reportAndResolveDuplicates fs removeOk rules files false).removeCalls = []) :=
  ⟨fun rules file1 file2 removeOk =>
      dupefile_resolveGo_nonlive file1 file2 removeOk
        (splitDir file1.path) (splitDir file2.path) rules,
   fun file1 file2 removeOk =>
      part001_resolveGo_nonlive file1 file2 removeOk
        (splitDir file1.path) (splitDir file2.path) Part001.hardRules,
   fun fs removeOk rules files =>
      dupefile_runGo_nonlive fs removeOk rules files [] [] []⟩

theorem contentsEqLoop_iff (c1 c2 : List Nat) (h : c1.length = c2.length) :
    contentsEqLoop c1 c2 = true ↔ c1 = c2 := by
  induction c1 generalizing c2 with
  | nil =>
    cases c2 with
    | nil => simp [contentsEqLoop]
    | cons b t => cases h
  | cons a t1 ih =>
    cases c2 with
    | nil => cases h
    | cons b t2 =>
      simp only [contentsEqLoop, Bool.and_eq_true, beq_iff_eq, List.cons.injEq]
      have hlen : t1.length = t2.length := by
        simpa using h
      rw [ih t2 hlen]

theorem readFile_ok_length (fs : FS) (file : File) (c : List Nat)
    (h : readFile fs file = .ok c) : c.length = file.size ∧ fs file.path = some c := by
  cases hf : fs file.path with
  | none => simp [readFile, hf] at h
  | some contents =>
    simp only [readFile, hf] at h
    by_cases hl : contents.length ≠ file.size
    · rw [if_pos hl] at h; cases h
    · rw [if_neg hl] at h
      cases h
      exact ⟨Decidable.not_not.mp hl, rfl⟩

/-- Claim C7: for every pair of file records whose contents can be re-read,
`isIdentical` returns true exactly when the recorded sizes match and the two
byte sequences are equal position by position, and false whenever the
contents differ in length or at any position. -/
theorem c7_isIdentical_iff_bytes_equal (fs : FS) (file1 file2 : File)
    (c1 c2 : List Nat) (h1 : readFile fs file1 = .ok c1)
    (h2 : readFile fs file2 = .ok c2) :
    isIdentical fs file1 file2 = .ok true ↔ (file1.size = file2.size ∧ c1 = c2) := by
  have hl1 := (readFile_ok_length fs file1 c1 h1).1
  have hl2 := (readFile_ok_length fs file2 c2 h2).1
  have heq : isIdentical fs file1 file2 =
      (if c1.length ≠ c2.length then Except.ok false
       else Except.ok (contentsEqLoop c1 c2)) := by
    unfold isIdentical
    rw [h1, h2]
    rfl
  rw [heq]
  by_cases hlen : c1.length ≠ c2.length
  · rw [if_pos hlen]
    constructor
    · intro h; cases h
    · intro hp
      exact absurd (by rw [hp.2]) hlen
  · have hlen2 : c1.length = c2.length := Decidable.not_not.mp hlen
    rw [if_neg hlen]
    constructor
    · intro h
      have hb : contentsEqLoop c1 c2 = true := Except.ok.inj h
      exact ⟨by rw [← hl1, ← hl2, hlen2], (contentsEqLoop_iff c1 c2 hlen2).mp hb⟩
    · intro hp
      rw [(contentsEqLoop_iff c1 c2 hlen2).mpr hp.2]

/-- Witness for C7 at a concrete filesystem: two files with equal bytes at
paths /a/x and /b/y are reported identical. -/
theorem c7_isIdentical_iff_bytes_equal_witness :
    isIdentical
      (fun p => if p = "/a/x" then some [1, 2] else if p = "/b/y" then some [1, 2] else none)
      ⟨"x", "/a/x", 2, [9]⟩ ⟨"y", "/b/y", 2, [9]⟩ = .ok true :=
  (c7_isIdentical_iff_bytes_equal
      (fun p => if p = "/a/x" then some [1, 2] else if p = "/b/y" then some [1, 2] else none)
      ⟨"x", "/a/x", 2, [9]⟩ ⟨"y", "/b/y", 2, [9]⟩ [1, 2] [1, 2]
      (by rfl) (by rfl)).mpr ⟨rfl, rfl⟩

/-- Claim C9: a file whose read yields a byte count different from the size
recorded at scan time makes the operation fail with a short-read error, and
a file that cannot be opened or read fails with an IO error, both during
fingerprinting (`calculateChecksum`) and during identity verification
(`readFile`); only a full-length read produces a digest. -/
theorem c9_short_read_and_io_errors :
    (∀ (hash : List Nat → List Nat) (fs : FS) (file : File),
      fs file.path = none →
      calculateChecksum hash fs file = .error (.ioError file.path)) ∧
    (∀ (hash : List Nat → List Nat) (fs : FS) (file : File) (c : List Nat),
      fs file.path = some c → c.length ≠ file.size →
      calculateChecksum hash fs file = .error (.shortRead file.path)) ∧
    (∀ (hash : List Nat → List Nat) (fs : FS) (file : File) (c : List Nat),
      fs file.path = some c → c.length = file.size →
      calculateChecksum hash fs file = .ok { file with hash := hash c }) ∧
    (∀ (fs : FS) (file : File),
      fs file.path = none → readFile fs file = .error (.ioError file.path)) ∧
    (∀ (fs : FS) (file : File) (c : List Nat),
      fs file.path = some c → c.length ≠ file.size →
      readFile fs file = .error (.shortRead file.path)) := by
  refine ⟨?_, ?_, ?_, ?_, ?_⟩
  · intro hash fs file h
    simp [calculateChecksum, h]
  · intro hash fs file c h hne
    simp [calculateChecksum, h, hne]
  · intro hash fs file c h he
    simp [calculateChecksum, h, he]
  · intro fs file h
    simp [readFile, h]
  · intro fs file c h hne
    simp [readFile, h, hne]

/-- Witness for C9: a file recorded with size 3 whose contents hold 2 bytes
fails the checksum pass with a short read, and a missing file fails with an
IO error. -/
theorem c9_short_read_and_io_errors_witness :
    calculateChecksum (fun c => c) (fun p => if p = "/a/x" then some [1, 2] else none)
      ⟨"x", "/a/x", 3, []⟩ = .error (.shortRead "/a/x") ∧
    readFile (fun p => if p = "/a/x" then some [1, 2] else none)
      ⟨"y", "/b/y", 2, []⟩ = .error (.ioError "/b/y") :=
  ⟨c9_short_read_and_io_errors.2.1 (fun c => c)
      (fun p => if p = "/a/x" then some [1, 2] else none)
      ⟨"x", "/a/x", 3, []⟩ [1, 2] (by rfl) (by decide),
   c9_short_read_and_io_errors.2.2.2.1
      (fun p => if p = "/a/x" then some [1, 2] else none)
      ⟨"y", "/b/y", 2, []⟩ (by rfl)⟩

theorem lookup_cons_pair (k d : List Nat) (v : File) (l : List (List Nat × File)) :
    List.lookup d ((k, v) :: l) = if d == k then some v else List.lookup d l := by
  cases hbe : (d == k) with
  | true => simp [List.lookup_cons, hbe]
  | false => simp [List.lookup_cons, hbe]

theorem insertAll_lookup (files : List File) :
    ∀ (index : List (List Nat × File)) (d : List Nat),
      (insertAll index files).lookup d =
        match index.lookup d with
        | some r => some r
        | none => files.find? (fun f => f.hash == d) := by
  induction files with
  | nil =>
    intro index d
    cases h : index.lookup d <;> simp [insertAll, h]
  | cons f rest ih =>
    intro index d
    cases hl : index.lookup f.hash with
    | some r =>
      have hstep : insertAll index (f :: rest) = insertAll index rest := by
        simp [insertAll, lookupOrInsert, hl]
      rw [hstep, ih index d]
      cases hd : index.lookup d with
      | some r2 => rfl
      | none =>
        have hne2 : ¬((fun g => g.hash == d) f = true) := by
          simp only [beq_iff_eq]
          intro hh
          rw [← hh, hl] at hd
          cases hd
        rw [List.find?_cons_of_neg rest hne2]
    | none =>
      have hstep : insertAll index (f :: rest) = insertAll ((f.hash, f) :: index) rest := by
        simp [insertAll, lookupOrInsert, hl]
      rw [hstep, ih ((f.hash, f) :: index) d, lookup_cons_pair]
      by_cases hbe : d = f.hash
      · subst hbe
        rw [if_pos (by simp), hl]
        have hfd : ((fun g => g.hash == f.hash) f) = true := by simp
        rw [List.find?_cons_of_pos rest hfd]
      · rw [if_neg (by simp [hbe])]
        have hne2 : ¬((fun g => g.hash == d) f = true) := by
          simp only [beq_iff_eq]
          exact Ne.symm hbe
        rw [List.find?_cons_of_neg rest hne2]

/-- Claim C3: the duplicate index lookup-or-insert stores the record and
returns found false when no record exists for the digest; when a record
exists it returns that record with found true leaving the index unchanged;
and over any processed sequence the stored representative for a digest is
the first record ever inserted for it. -/
theorem c3_index_first_record_wins :
    (∀ (index : List (List Nat × File)) (d : List Nat) (f : File),
      index.lookup d = none →
      lookupOrInsert index d f = (f, (d, f) :: index, false) ∧
      ((d, f) :: index).lookup d = some f) ∧
    (∀ (index : List (List Nat × File)) (d : List Nat) (f r : File),
      index.lookup d = some r → lookupOrInsert index d f = (r, index, true)) ∧
    (∀ (files : List File) (d : List Nat),
      (insertAll [] files).lookup d = files.find? (fun f => f.hash == d)) := by
  refine ⟨?_, ?_, ?_⟩
  · intro index d f h
    refine ⟨by simp [lookupOrInsert, h], ?_⟩
    rw [lookup_cons_pair]
    simp
  · intro index d f r h
    simp [lookupOrInsert, h]
  · intro files d
    rw [insertAll_lookup files [] d]
    rfl

/-- Witness for C3: at digest 9 with an empty index the record is inserted
with found false, a second lookup returns the first record with found true,
and after processing two records with digest 9 the stored representative is
the first one. -/
theorem c3_index_first_record_wins_witness :
    (lookupOrInsert [] [9] ⟨"a", "/p/a", 1, [9]⟩ =
      (⟨"a", "/p/a", 1, [9]⟩, [([9], ⟨"a", "/p/a", 1, [9]⟩)], false)) ∧
    (lookupOrInsert [([9], ⟨"a", "/p/a", 1, [9]⟩)] [9] ⟨"b", "/p/b", 1, [9]⟩ =
      (⟨"a", "/p/a", 1, [9]⟩, [([9], ⟨"a", "/p/a", 1, [9]⟩)], true)) ∧
    ((insertAll [] [⟨"a", "/p/a", 1, [9]⟩, ⟨"b", "/p/b", 1, [9]⟩]).lookup [9] =
      some ⟨"a", "/p/a", 1, [9]⟩) :=
  ⟨(c3_index_first_record_wins.1 [] [9] ⟨"a", "/p/a", 1, [9]⟩ (by rfl)).1,
   c3_index_first_record_wins.2.1 [([9], ⟨"a", "/p/a", 1, [9]⟩)] [9]
     ⟨"b", "/p/b", 1, [9]⟩ ⟨"a", "/p/a", 1, [9]⟩ (by rfl),
   by
     rw [c3_index_first_record_wins.2.2 [⟨"a", "/p/a", 1, [9]⟩, ⟨"b", "/p/b", 1, [9]⟩] [9]]
     rfl⟩

theorem string_length_zero (s : String) (h : s.length = 0) : s = "" := by
  cases s with
  | mk data =>
    cases data with
    | nil => rfl
    | cons c cs => simp [String.length] at h

/-- The validity condition on a single rule, following the words of the
spec: both directories present, both absolute (leading slash), and distinct
from each other. -/
def goodRule (r : Rule) : Prop :=
  r.keepDir ≠ "" ∧ r.removeDir ≠ "" ∧ r.keepDir.data.head? = some '/' ∧
  r.removeDir.data.head? = some '/' ∧ r.keepDir ≠ r.removeDir

theorem validateRulesGo_ok_iff (rules : List Rule) : ∀ i : Nat,
    Dupefile.validateRulesGo i rules = .ok () ↔ ∀ r ∈ rules, goodRule r := by
  induction rules with
  | nil => intro i; simp [Dupefile.validateRulesGo]
  | cons rule rest ih =>
    intro i
    simp only [Dupefile.validateRulesGo]
    by_cases h1 : (rule.keepDir.length == 0 || rule.removeDir.length == 0) = true
    · rw [if_pos h1]
      constructor
      · intro h; cases h
      · intro hall
        exfalso
        obtain ⟨hk, hr, -⟩ := hall rule (by simp)
        rcases Bool.or_eq_true_iff.mp h1 with hh | hh
        · exact hk (string_length_zero _ (by simpa using hh))
        · exact hr (string_length_zero _ (by simpa using hh))
    · rw [if_neg h1]
      by_cases h2 : (rule.keepDir.data.head? != some '/' ||
          rule.removeDir.data.head? != some '/') = true
      · rw [if_pos h2]
        constructor
        · intro h; cases h
        · intro hall
          exfalso
          obtain ⟨-, -, hk, hr, -⟩ := hall rule (by simp)
          rcases Bool.or_eq_true_iff.mp h2 with hh | hh
          · have hne : rule.keepDir.data.head? ≠ some '/' := by simpa using hh
            exact hne hk
          · have hne : rule.removeDir.data.head? ≠ some '/' := by simpa using hh
            exact hne hr
      · rw [if_neg h2]
        by_cases h3 : (rule.keepDir == rule.removeDir) = true
        · rw [if_pos h3]
          constructor
          · intro h; cases h
          · intro hall
            exfalso
            obtain ⟨-, -, -, -, hne⟩ := hall rule (by simp)
            exact hne (by simpa using h3)
        · rw [if_neg h3]
          rw [ih (i + 1)]
          constructor
          · intro hrest r hr
            cases hr with
            | head =>
              have h1f := Bool.or_eq_false_iff.mp (Bool.eq_false_iff.mpr h1)
              have h2f := Bool.or_eq_false_iff.mp (Bool.eq_false_iff.mpr h2)
              refine ⟨?_, ?_, ?_, ?_, ?_⟩
              · intro he
                have : rule.keepDir.length = 0 := by rw [he]; rfl
                exact absurd ((beq_iff_eq).mpr this) (by simp [h1f.1])
              · intro he
                have : rule.removeDir.length = 0 := by rw [he]; rfl
                exact absurd ((beq_iff_eq).mpr this) (by simp [h1f.2])
              · simpa using h2f.1
              · simpa using h2f.2
              · simpa using Bool.eq_false_iff.mpr h3
            | tail _ hr2 => exact hrest r hr2
          · intro hall r hr
            exact hall r (List.mem_cons_of_mem rule hr)

/-- Claim C8: loading a rule configuration succeeds exactly when the decoded
rule list is non-empty and every rule has a non-empty keep and remove
directory, both absolute, with keep different from remove; otherwise it is
rejected with a config error. -/
theorem c8_readRules_accepts_iff_valid (rules : List Rule) :
    (Dupefile.readRules rules = .ok rules ↔
      (rules ≠ [] ∧ ∀ r ∈ rules, goodRule r)) ∧
    (¬(rules ≠ [] ∧ ∀ r ∈ rules, goodRule r) →
      ∃ e, Dupefile.readRules rules = .error e) := by
  unfold Dupefile.readRules
  by_cases hE : (rules.length == 0) = true
  · rw [if_pos hE]
    have hnil : rules = [] := List.length_eq_zero.mp (by simpa using hE)
    constructor
    · constructor
      · intro h; cases h
      · intro hp; exact absurd hnil hp.1
    · intro hnp; exact ⟨.noRules, rfl⟩
  · rw [if_neg hE]
    have hne : rules ≠ [] := by
      intro hnil
      exact hE (by simp [hnil])
    cases hv : Dupefile.validateRulesGo 0 rules with
    | ok u =>
      cases u
      constructor
      · constructor
        · intro _; exact ⟨hne, (validateRulesGo_ok_iff rules 0).mp hv⟩
        · intro _; rfl
      · intro hnp
        exact absurd ⟨hne, (validateRulesGo_ok_iff rules 0).mp hv⟩ hnp
    | error e =>
      constructor
      · constructor
        · intro h; cases h
        · intro hp
          have := (validateRulesGo_ok_iff rules 0).mpr hp.2
          rw [hv] at this
          cases this
      · intro _; exact ⟨e, rfl⟩

/-- Witness for C8: the single-rule configuration keep /a/ remove /b/ is
accepted, and its validity condition follows by the theorem. -/
theorem c8_readRules_accepts_iff_valid_witness :
    (([⟨"/a/", "/b/"⟩] : List Rule) ≠ [] ∧ ∀ r ∈ ([⟨"/a/", "/b/"⟩] : List Rule), goodRule r) ∧
    ∃ e, Dupefile.readRules [⟨"", "/b/"⟩] = .error e :=
  ⟨(c8_readRules_accepts_iff_valid [⟨"/a/", "/b/"⟩]).1.mp (by rfl),
   (c8_readRules_accepts_iff_valid [⟨"", "/b/"⟩]).2 (by
      intro hp
      have := hp.2 ⟨"", "/b/"⟩ (by simp)
      exact this.1 rfl)⟩

/-- Claim C6: in the config-driven variant the rule list is scanned in order
and the first rule matching the parent-directory pair in either orientation
fully decides the outcome: the result equals the outcome of that rule alone,
whatever rules follow it.  In the part_001 variant the loop keeps scanning
after a match, but at most one rule of its embedded table can match any
directory pair, so at most one rule ever acts there as well. -/
theorem c6_first_matching_rule_decides (pre post : List Rule) (rule : Rule)
    (file1 file2 : File) (live : Bool) (removeOk : String → Bool)
    (hpre : ∀ r ∈ pre, matchesRule r (splitDir file1.path) (splitDir file2.path) = false)
    (hrule : matchesRule rule (splitDir file1.path) (splitDir file2.path) = true) :
    Dupefile.resolveDuplicate (pre ++ rule :: post) file1 file2 live removeOk =
      Dupefile.resolveGo file1 file2 live removeOk
        (splitDir file1.path) (splitDir file2.path) [rule] ∧
    (Part001.resolveDuplicate removeOk file1 file2 live).reports.length ≤ 1 :=
  ⟨dupefile_resolveGo_first_match file1 file2 live removeOk
      (splitDir file1.path) (splitDir file2.path) pre rule post hpre hrule,
   (part001_resolveGo_calls_cases file1 file2 live removeOk
      (splitDir file1.path) (splitDir file2.path) Part001.hardRules
      (hardRules_countMatches_le_one (splitDir file1.path) (splitDir file2.path))).2⟩

/-- Witness for C6: with a non-matching rule before and a conflicting rule
after, the outcome for the pair /a/x.png, /b/y.png equals the outcome of the
matching middle rule alone. -/
theorem c6_first_matching_rule_decides_witness :
    Dupefile.resolveDuplicate [⟨"/p/", "/q/"⟩, ⟨"/a/", "/b/"⟩, ⟨"/b/", "/a/"⟩]
      ⟨"x", "/a/x.png", 1, [5]⟩ ⟨"y", "/b/y.png", 1, [5]⟩ false (fun _ => true) =
      Dupefile.resolveGo ⟨"x", "/a/x.png", 1, [5]⟩ ⟨"y", "/b/y.png", 1, [5]⟩ false
        (fun _ => true) (splitDir "/a/x.png") (splitDir "/b/y.png") [⟨"/a/", "/b/"⟩] :=
  (c6_first_matching_rule_decides [⟨"/p/", "/q/"⟩] [⟨"/b/", "/a/"⟩] ⟨"/a/", "/b/"⟩
    ⟨"x", "/a/x.png", 1, [5]⟩ ⟨"y", "/b/y.png", 1, [5]⟩ false (fun _ => true)
    (by decide) (by decide)).1

/-- Claim C4, code bug at dupefile.go line 537: with rule keep /a/ remove
/b/ and the pair discovered in the order /b/y.png then /a/x.png, dry-run
reports it would delete /a/x.png, the file in the keep directory, while the
opposite discovery order reports /b/y.png; live mode deletes /b/y.png in
both orders, so the dry-run report of the swapped order names the wrong
file and the resolution is not symmetric in discovery order. -/
theorem c4_dry_run_report_asymmetric :
    (Dupefile.resolveDuplicate [⟨"/a/", "/b/"⟩] ⟨"x", "/a/x.png", 1, [5]⟩
      ⟨"y", "/b/y.png", 1, [5]⟩ false (fun _ => true)).reports =
        [.wouldDelete "/b/y.png"] ∧
    (Dupefile.resolveDuplicate [⟨"/a/", "/b/"⟩] ⟨"y", "/b/y.png", 1, [5]⟩
      ⟨"x", "/a/x.png", 1, [5]⟩ false (fun _ => true)).reports =
        [.wouldDelete "/a/x.png"] ∧
    (Dupefile.resolveDuplicate [⟨"/a/", "/b/"⟩] ⟨"y", "/b/y.png", 1, [5]⟩
      ⟨"x", "/a/x.png", 1, [5]⟩ true (fun _ => true)).removeCalls = ["/b/y.png"] :=
  ⟨by decide, by decide, by decide⟩

theorem dropWhile_slash (l : List Char) :
    l.dropWhile (fun c => c != '/') = [] ∨
    ∃ t, l.dropWhile (fun c => c != '/') = '/' :: t := by
  induction l with
  | nil => left; rfl
  | cons c cs ih =>
    by_cases hc : c = '/'
    · right
      refine ⟨cs, ?_⟩
      rw [List.dropWhile_cons]
      simp [hc]
    · rw [List.dropWhile_cons]
      simp only [if_pos (by simp [hc] : (c != '/') = true)]
      exact ih

theorem splitDir_empty_or_slash (p : String) :
    splitDir p = "" ∨ (splitDir p).data.getLast? = some '/' := by
  unfold splitDir
  rcases dropWhile_slash p.data.reverse with h | ⟨t, h⟩
  · left; rw [h]; rfl
  · right
    rw [h]
    simp [List.getLast?_reverse]

theorem splitDir_slash_of_mem (p : String) (hmem : '/' ∈ p.data) :
    (splitDir p).data.getLast? = some '/' := by
  rcases dropWhile_slash p.data.reverse with h | ⟨t, h⟩
  · exfalso
    have hall := List.dropWhile_eq_nil_iff.mp h
    have := hall '/' (List.mem_reverse.mpr hmem)
    simp at this
  · unfold splitDir
    rw [h]
    simp [List.getLast?_reverse]

/-- Claim C10 counterexample: for a path holding no separator the computed
parent directory is the empty string, which does not end with a separator,
so the parent directory does not always end with a path separator. -/
theorem c10_counterexample_slashless_path :
    splitDir "x.png" = "" ∧ (splitDir "x.png").data.getLast? ≠ some '/' := by
  refine ⟨by decide, by decide⟩

/-- Claim C10 amended: the parent directory computed by the engines ends
with a path separator whenever the file path holds one, and is the empty
string otherwise; consequently a non-empty rule directory (as every
validated rule directory is) lacking a trailing separator can never equal a
computed parent directory, and rule matching is exact string equality on
the directory strings, trailing separator included. -/
theorem c10_parent_dir_trailing_separator :
    (∀ p : String, '/' ∈ p.data → (splitDir p).data.getLast? = some '/') ∧
    (∀ p : String, splitDir p = "" ∨ (splitDir p).data.getLast? = some '/') ∧
    (∀ p d : String, d ≠ "" → d.data.getLast? ≠ some '/' → splitDir p ≠ d) ∧
    (∀ (rule : Rule) (d1 d2 : String), matchesRule rule d1 d2 = true ↔
      ((d1 = rule.keepDir ∧ d2 = rule.removeDir) ∨
       (d1 = rule.removeDir ∧ d2 = rule.keepDir))) := by
  refine ⟨splitDir_slash_of_mem, splitDir_empty_or_slash, ?_, ?_⟩
  · intro p d hne hlast heq
    rcases splitDir_empty_or_slash p with h | h
    · rw [heq] at h
      exact hne h
    · rw [heq] at h
      exact hlast h
  · intro rule d1 d2
    simp [matchesRule]

/-- Witness for C10: the parent of /a/x.png ends with a slash, can never
equal the separator-free string /a, and the rule keep /a/ remove /b/
matches the pair of parents by exact equality. -/
theorem c10_parent_dir_trailing_separator_witness :
    (splitDir "/a/x.png").data.getLast? = some '/' ∧
    splitDir "/a/x.png" ≠ "/a" ∧
    matchesRule ⟨"/a/", "/b/"⟩ "/a/" "/b/" = true :=
  ⟨c10_parent_dir_trailing_separator.1 "/a/x.png" (by decide),
   c10_parent_dir_trailing_separator.2.2.1 "/a/x.png" "/a" (by decide) (by decide),
   (c10_parent_dir_trailing_separator.2.2.2 ⟨"/a/", "/b/"⟩ "/a/" "/b/").mpr
     (Or.inl ⟨rfl, rfl⟩)⟩

/-- Claim C2 amended: on a pair with equal digest but non-identical contents
neither variant deletes either file and both surface the condition
distinctly; but the config-driven variant treats it as a fatal error ending
the run with no further file processed (the result does not depend on the
remaining files), while part_001 logs the distinct collision report and
continues processing the remaining files. -/
theorem c2_collision_without_identity (fs : FS) (removeOk : String → Bool)
    (rules : List Rule) (live : Bool) (file1 file2 : File) (rest : List File)
    (hhash : file1.hash = file2.hash)
    (hdiff : isIdentical fs file1 file2 = .ok false) :
    Dupefile.reportAndResolveDuplicates fs removeOk rules (file1 :: file2 :: rest) live =
      ⟨[], [], [(file1.hash, file1)],
        some (.hashCollisionNotIdentical file2.path file1.path)⟩ ∧
    Part001.reportDupes fs removeOk (file1 :: file2 :: rest) live =
      Part001.reportDupesGo fs removeOk live [(file1.hash, file1)]
        [.hashCollisionReport file2.path file1.path] [] rest := by
  have hlook : List.lookup file2.hash [(file1.hash, file1)] = some file1 := by
    rw [lookup_cons_pair, if_pos (beq_iff_eq.mpr hhash.symm)]
  constructor
  · simp only [Dupefile.reportAndResolveDuplicates, Dupefile.runGo, List.lookup_nil,
      hlook, hdiff]
  · simp only [Part001.reportDupes, Part001.reportDupesGo, List.lookup_nil,
      hlook, hdiff, List.nil_append]

/-- Witness for C2 at a concrete filesystem: files /q/a and /q/b share
digest 9 but hold bytes 1 and 2; the config-driven run ends with the
distinct collision error and an empty removal trace. -/
theorem c2_collision_without_identity_witness :
    Dupefile.reportAndResolveDuplicates
      (fun p => if p = "/q/a" then some [1] else if p = "/q/b" then some [2] else none)
      (fun _ => true) [⟨"/q/", "/r/"⟩]
      [⟨"a", "/q/a", 1, [9]⟩, ⟨"b", "/q/b", 1, [9]⟩] true =
      ⟨[], [], [([9], ⟨"a", "/q/a", 1, [9]⟩)],
        some (.hashCollisionNotIdentical "/q/b" "/q/a")⟩ :=
  (c2_collision_without_identity
    (fun p => if p = "/q/a" then some [1] else if p = "/q/b" then some [2] else none)
    (fun _ => true) [⟨"/q/", "/r/"⟩] true
    ⟨"a", "/q/a", 1, [9]⟩ ⟨"b", "/q/b", 1, [9]⟩ [] rfl (by rfl)).1

/-- Claim C2 counterexample: in the config-driven variant a collision
without identity is fatal, contradicting that processing continues: with a
third file /q/c following the colliding pair, the run returns the collision
error and the third file is never processed (it is absent from the final
index and reports), and the result is identical to the run without it. -/
theorem c2_counterexample_collision_is_fatal :
    Dupefile.reportAndResolveDuplicates
      (fun p => if p = "/q/a" then some [1] else if p = "/q/b" then some [2]
                else if p = "/q/c" then some [3] else none)
      (fun _ => true) [⟨"/q/", "/r/"⟩]
      [⟨"a", "/q/a", 1, [9]⟩, ⟨"b", "/q/b", 1, [9]⟩, ⟨"c", "/q/c", 1, [7]⟩] true =
      ⟨[], [], [([9], ⟨"a", "/q/a", 1, [9]⟩)],
        some (.hashCollisionNotIdentical "/q/b" "/q/a")⟩ := by
  decide
